import Mathlib

/-!
Verification of the Bruin Plate meal optimizer core
(`optimizer/meal_optimizer.py`).

The embedding is shallow: Python floats become exact rationals `ℚ`;
the PuLP decision model is represented as data (objective terms and a
list of named linear constraints); the external integer-program solver
is abstracted as a function argument; Python dict records become the
`FoodItem` structure whose optional fields mirror `dict.get` defaults.
-/

set_option autoImplicit false

set_option allowUnsafeReducibility true in
attribute [semireducible] Rat.add Rat.mul Rat.sub Rat.inv Rat.ofScientific

namespace MealOpt

/-- Python's `str.lower()` (ASCII case folding, which covers every
string this program compares). -/
def pyLower (s : String) : String :=
  String.mk (s.data.map Char.toLower)

/-- A catalog food record.  Nutrient fields are optional, mirroring the
Python `food.get("protein", 0)` access pattern; `servings` is the key
that `_format_results` adds to a *copy* of a selected record, absent
(`none`) on catalog records at load time. -/
structure FoodItem where
  name : String
  meal_time : String
  category : String
  calories : Option ℚ := none
  protein : Option ℚ := none
  carbs : Option ℚ := none
  fat : Option ℚ := none
  fiber : Option ℚ := none
  sodium : Option ℚ := none
  servings : Option ℤ := none
deriving DecidableEq, Repr, Inhabited

/-- `self.foods[i]` (out-of-range reads never happen on the indices the
code produces; `default` keeps the function total). -/
def foodAt (foods : List FoodItem) (i : Nat) : FoodItem :=
  foods.getD i default

/-- `food.get("calories", 0)` -/
def caloriesD (f : FoodItem) : ℚ := f.calories.getD 0

/-- `food.get("protein", 0)` -/
def proteinD (f : FoodItem) : ℚ := f.protein.getD 0

/-- `food.get("carbs", 0)` -/
def carbsD (f : FoodItem) : ℚ := f.carbs.getD 0

/-- `food.get("fat", 0)` -/
def fatD (f : FoodItem) : ℚ := f.fat.getD 0

/-- `food.get("fiber", 0)` -/
def fiberD (f : FoodItem) : ℚ := f.fiber.getD 0

/-- `food.get("sodium", 0)` -/
def sodiumD (f : FoodItem) : ℚ := f.sodium.getD 0

/-- `item["servings"]` on a result record (always present there). -/
def servD (f : FoodItem) : ℤ := f.servings.getD 0

/-- Python 3 `round` on an exact rational: nearest integer, ties to even. -/
def pyRound (q : ℚ) : ℤ :=
  let f : ℤ := q.floor
  let r : ℚ := q - (f : ℚ)
  if r < 1/2 then f
  else if 1/2 < r then f + 1
  else if f % 2 = 0 then f else f + 1

/-- Python's `needle in haystack` substring test. -/
def strContains (s p : String) : Bool :=
  s.toList.tails.any (fun t => p.toList.isPrefixOf t)

/-- `valid_meals = ["breakfast", "lunch", "dinner"]` -/
def validMeals : List String := ["breakfast", "lunch", "dinner"]

/-- `[m.lower() for m in selected_meals if m.lower() in valid_meals]` -/
def filterMeals (sel : List String) : List String :=
  sel.filterMap (fun m =>
    if pyLower m ∈ validMeals then some (pyLower m) else none)

/-- Indices of the foods that receive a decision variable: the
`food_vars` keys of `optimize_meal_plan` (meal_time selected, name not
excluded), in catalog order. -/
def eligibleIdx (foods : List FoodItem) (sel excl : List String) : List Nat :=
  ((List.range foods.length).filter (fun i =>
    decide ((foodAt foods i).meal_time ∈ sel) &&
    decide ((foodAt foods i).name ∉ excl)))

/-- `_is_fruit`: the category, lowercased, contains the keyword "fruit". -/
def isFruit (food : FoodItem) : Bool :=
  strContains (pyLower food.category) "fruit"

/-- Comparison direction of a PuLP linear constraint. -/
inductive Cmp where
  | le
  | ge
deriving DecidableEq, Repr

/-- The names `optimize_meal_plan` gives its constraints
(`"Min_Calories"`, …, `f"Min_\x7bmeal_time\x7d_calories"`, …). -/
inductive ConName where
  | minCal
  | maxCal
  | minProt
  | maxProt
  | minMeal (meal : String)
  | minFruits
  | maxFruits
deriving DecidableEq, Repr

/-- A linear constraint `Σ coeff·x_i  (≤ or ≥)  rhs`, as handed to the
solver.  `coeffs` lists `(variable index, coefficient)` terms of the
`lpSum`. -/
structure LinCon where
  cname : ConName
  coeffs : List (Nat × ℚ)
  cmp : Cmp
  rhs : ℚ
deriving DecidableEq, Repr

/-- Value of a linear term list under an assignment of the variables. -/
def evalLin (terms : List (Nat × ℚ)) (x : Nat → ℚ) : ℚ :=
  (terms.map (fun p => p.2 * x p.1)).sum

/-- The decision model `optimize_meal_plan` submits to `prob.solve()`:
integer variables in `[0, maxServ]` for `vars`, a maximization
objective, and the named constraints. -/
structure LPModel where
  vars : List Nat
  lowBound : ℤ
  upBound : ℤ
  obj : List (Nat × ℚ)
  cons : List LinCon
deriving Repr

/-- Model construction from `optimize_meal_plan` (lines 104-186),
after the eligible variable set has been found non-empty.  `sel` is the
already lowercased/filtered meal list. -/
def buildModel (foods : List FoodItem) (sel excl : List String)
    (targetCal targetProt : ℚ) (minFruits maxFruits : ℤ)
    (calTol protTol diversityWeight : ℚ) (maxServ : ℤ) : LPModel :=
  let vars := eligibleIdx foods sel excl
  let calTerms := vars.map (fun i => (i, caloriesD (foodAt foods i)))
  let protTerms := vars.map (fun i => (i, proteinD (foodAt foods i)))
  let minMealCal : ℚ := targetCal / ((max sel.length 1 : ℕ) : ℚ)
  let mealCons : List LinCon := sel.filterMap (fun m =>
    let mealFoods := vars.filter (fun i =>
      decide ((foodAt foods i).meal_time = m))
    if mealFoods.isEmpty then none
    else
      let factor : ℚ :=
        if m = "breakfast" ∧ 1 < sel.length then 1/2 else 4/5
      some { cname := ConName.minMeal m
             coeffs := mealFoods.map (fun i => (i, caloriesD (foodAt foods i)))
             cmp := Cmp.ge
             rhs := minMealCal * factor })
  let fruitFoods := vars.filter (fun i => isFruit (foodAt foods i))
  let fruitCons : List LinCon :=
    if fruitFoods.isEmpty then []
    else
      [ { cname := ConName.minFruits
          coeffs := fruitFoods.map (fun i => (i, (1 : ℚ)))
          cmp := Cmp.ge
          rhs := (minFruits : ℚ) },
        { cname := ConName.maxFruits
          coeffs := fruitFoods.map (fun i => (i, (1 : ℚ)))
          cmp := Cmp.le
          rhs := (maxFruits : ℚ) } ]
  { vars := vars
    lowBound := 0
    upBound := maxServ
    obj := protTerms ++ vars.map (fun i => (i, -diversityWeight))
    cons :=
      [ { cname := ConName.minCal, coeffs := calTerms
          cmp := Cmp.ge, rhs := targetCal - calTol },
        { cname := ConName.maxCal, coeffs := calTerms
          cmp := Cmp.le, rhs := targetCal + calTol },
        { cname := ConName.minProt, coeffs := protTerms
          cmp := Cmp.ge, rhs := targetProt - protTol },
        { cname := ConName.maxProt, coeffs := protTerms
          cmp := Cmp.le, rhs := targetProt + protTol } ]
      ++ mealCons ++ fruitCons }

/-- The `totals` dictionary of a formatted result. -/
structure Totals where
  calories : ℚ
  protein : ℚ
  carbs : ℚ
  fat : ℚ
  fiber : ℚ
  sodium : ℚ
deriving DecidableEq, Repr

/-- A result dictionary of the optimizer.  Error results carry an empty
`meals` mapping and an empty (`none`) `totals`; keys that a branch does
not set keep their Python-absent defaults. -/
structure PlanResult where
  status : String
  message : String := ""
  meals : List (String × List FoodItem) := []
  totals : Option Totals := none
  items_selected : List FoodItem := []
  num_items : Nat := 0
  selected_meals : List String := []
deriving DecidableEq, Repr

/-- A selected catalog record annotated with its rounded serving count:
`food = self.foods[i].copy(); food["servings"] = int(round(servings))`. -/
def annotate (foods : List FoodItem) (val : Nat → ℚ) (i : Nat) : FoodItem :=
  { foodAt foods i with servings := some (pyRound (val i)) }

/-- `_format_results` (lines 274-305): keep each variable whose solved
value exceeds `0.01`, annotate a copy of its food with the rounded
serving count, bucket it by meal, and total the six nutrients. -/
def formatResults (foods : List FoodItem) (idxs : List Nat)
    (val : Nat → ℚ) : PlanResult :=
  let sel := (idxs.filter (fun i => decide ((1 : ℚ)/100 < val i))).map
    (annotate foods val)
  { status := "Optimal"
    meals :=
      [ ("breakfast", sel.filter (fun f => f.meal_time = "breakfast")),
        ("lunch", sel.filter (fun f => f.meal_time = "lunch")),
        ("dinner", sel.filter (fun f => f.meal_time = "dinner")) ]
    totals := some
      { calories := (sel.map (fun it => caloriesD it * (servD it : ℚ))).sum
        protein := (sel.map (fun it => proteinD it * (servD it : ℚ))).sum
        carbs := (sel.map (fun it => carbsD it * (servD it : ℚ))).sum
        fat := (sel.map (fun it => fatD it * (servD it : ℚ))).sum
        fiber := (sel.map (fun it => fiberD it * (servD it : ℚ))).sum
        sodium := (sel.map (fun it => sodiumD it * (servD it : ℚ))).sum }
    items_selected := sel
    num_items := sel.length }

/-- What `prob.solve(); LpStatus[prob.status]; value(var)` yields: a
status string and, when Optimal, a value per variable index. -/
structure SolverOut where
  status : String
  val : Nat → ℚ

/-- `optimize_meal_plan` (lines 47-204), with the external solver
passed in as `solver`.  `selMeals? = none` models the `selected_meals=None`
default, `excl? = none` the `exclude_items=None` default. -/
def optimizeMealPlan (foods : List FoodItem)
    (targetCal targetProt : ℚ) (selMeals? : Option (List String))
    (minFruits maxFruits : ℤ) (calTol protTol diversityWeight : ℚ)
    (maxServ : ℤ) (excl? : Option (List String))
    (solver : LPModel → SolverOut) : PlanResult :=
  let sel0 := selMeals?.getD ["breakfast", "lunch", "dinner"]
  let sel := filterMeals sel0
  if sel.isEmpty then
    { status := "Error"
      message := "No valid meals selected. Choose from: breakfast, lunch, dinner" }
  else
    let excl := excl?.getD []
    let vars := eligibleIdx foods sel excl
    if vars.isEmpty then
      { status := "Error"
        message := "No foods available for selected meals: "
          ++ String.intercalate ", " sel }
    else
      let model := buildModel foods sel excl targetCal targetProt
        minFruits maxFruits calTol protTol diversityWeight maxServ
      let out := solver model
      if out.status = "Optimal" then
        { formatResults foods vars out.val with selected_meals := sel }
      else
        { status := out.status
          message := "Could not find optimal solution. Try relaxing constraints."
          selected_meals := sel }

/-- `item["servings"] >= 2` filter of `generate_multiple_plans`
(lines 257-260): the names to add to the exclusion list. -/
def itemsToExclude (r : PlanResult) : List String :=
  (r.items_selected.filter (fun it => decide (2 ≤ servD it))).map
    (fun it => it.name)

/-- The loop of `generate_multiple_plans` (lines 234-264): `step excl`
is one call of `optimize_meal_plan` with `exclude_items = excl` and all
other arguments fixed. -/
def generatePlansAux (step : List String → PlanResult) :
    Nat → List String → List PlanResult
  | 0, _ => []
  | n + 1, excl =>
    let r := step excl
    if r.status = "Optimal" then
      r :: generatePlansAux step n (excl ++ itemsToExclude r)
    else []

/-- `generate_multiple_plans` (lines 206-265): run the loop starting
from an empty exclusion list. -/
def generateMultiplePlans (step : List String → PlanResult) (n : Nat) :
    List PlanResult :=
  generatePlansAux step n []

/-- Heap model of the selection loop of `_format_results`: `heap` holds
every allocated food dictionary, the catalog being addresses
`0 .. heap.length - 1`.  `self.foods[i].copy()` allocates a fresh
record at the end of the heap; the `servings` key is set on that copy.
Returns the final heap and the addresses of the selected copies. -/
def annotateAll (heap : List FoodItem) (idxs : List Nat)
    (val : Nat → ℚ) : List FoodItem × List Nat :=
  match idxs with
  | [] => (heap, [])
  | i :: rest =>
    if (1 : ℚ)/100 < val i then
      let f := { foodAt heap i with servings := some (pyRound (val i)) }
      let p := annotateAll (heap ++ [f]) rest val
      (p.1, heap.length :: p.2)
    else annotateAll heap rest val

/-! ### Concrete instances used to exercise the theorems -/

/-- A breakfast fruit item. -/
def wApple : FoodItem :=
  { name := "Apple", meal_time := "breakfast", category := "Fresh Fruit",
    calories := some 95, protein := some 1 }

/-- A breakfast non-fruit item. -/
def wEggs : FoodItem :=
  { name := "Eggs", meal_time := "breakfast", category := "Protein",
    calories := some 140, protein := some 12 }

/-- An item whose `meal_time` is not exactly lowercase. -/
def bApple : FoodItem :=
  { name := "Apple", meal_time := "Breakfast", category := "Fresh Fruit",
    calories := some 95, protein := some 1 }

/-- The all-ones variable assignment. -/
def oneVal : Nat → ℚ := fun _ => 1

/-- The all-twos variable assignment. -/
def twoVal : Nat → ℚ := fun _ => 2

/-- A solved value exhibiting the raw-versus-rounded threshold gap. -/
def cexVal : Nat → ℚ := fun _ => 3/10

/-- A solver stub that reports Optimal with every serving equal to 1. -/
def oneSolver : LPModel → SolverOut := fun _ => ⟨"Optimal", fun _ => 1⟩

/-- A sub-solve stub that always fails. -/
def errStep : List String → PlanResult := fun _ => { status := "Infeasible" }

/-- An Optimal plan with one double-serving item and one single-serving
item. -/
def okResult : PlanResult :=
  { status := "Optimal"
    items_selected :=
      [ { name := "Chicken", meal_time := "lunch", category := "Protein",
          servings := some 2 },
        { name := "Rice", meal_time := "lunch", category := "Grain",
          servings := some 1 } ]
    num_items := 2 }

/-- A sub-solve stub that always returns `okResult`. -/
def okStep : List String → PlanResult := fun _ => okResult

/-! ### Helper lemmas -/

theorem evalLin_append (a b : List (Nat × ℚ)) (x : Nat → ℚ) :
    evalLin (a ++ b) x = evalLin a x + evalLin b x := by
  simp [evalLin]

theorem evalLin_map (l : List Nat) (c : Nat → ℚ) (x : Nat → ℚ) :
    evalLin (l.map (fun i => (i, c i))) x = (l.map (fun i => c i * x i)).sum := by
  simp [evalLin, List.map_map]; rfl

theorem evalLin_map_const (l : List Nat) (w : ℚ) (x : Nat → ℚ) :
    evalLin (l.map (fun i => (i, w))) x = w * (l.map x).sum := by
  rw [evalLin_map]
  simpa using (List.sum_map_mul_left l x w)

theorem generatePlansAux_length (step : List String → PlanResult) :
    ∀ (n : Nat) (excl : List String),
      (generatePlansAux step n excl).length ≤ n := by
  intro n
  induction n with
  | zero => intro excl; simp [generatePlansAux]
  | succ n ih =>
    intro excl
    rw [generatePlansAux]
    split
    · simpa using ih _
    · simp

/-! ### Claims -/

/-- C2: for a request with a non-empty eligible item set, the objective
handed to the solver is `Σ protein·servings − diversity_weight · Σ servings`
over the eligible items, a missing protein field contributing 0. -/
theorem objective_eq (foods : List FoodItem) (sel excl : List String)
    (tc tp : ℚ) (minF maxF : ℤ) (ct pt w : ℚ) (ms : ℤ)
    (hne : eligibleIdx foods sel excl ≠ []) (x : Nat → ℚ) :
    evalLin (buildModel foods sel excl tc tp minF maxF ct pt w ms).obj x =
      ((eligibleIdx foods sel excl).map
        (fun i => proteinD (foodAt foods i) * x i)).sum
      - w * ((eligibleIdx foods sel excl).map x).sum := by
  have h1 := evalLin_append
    ((eligibleIdx foods sel excl).map (fun i => (i, proteinD (foodAt foods i))))
    ((eligibleIdx foods sel excl).map (fun i => (i, -w))) x
  have h2 := evalLin_map (eligibleIdx foods sel excl)
    (fun i => proteinD (foodAt foods i)) x
  have h3 := evalLin_map_const (eligibleIdx foods sel excl) (-w) x
  show evalLin
      ((eligibleIdx foods sel excl).map (fun i => (i, proteinD (foodAt foods i)))
        ++ (eligibleIdx foods sel excl).map (fun i => (i, -w))) x = _
  rw [h1, h2, h3]
  ring

/-- C2 witness. -/
theorem objective_eq_witness :
    evalLin (buildModel [wApple] ["breakfast"] [] 95 1 1 3 300 20 (1/10) 3).obj
      oneVal = 9/10 := by
  have h := objective_eq [wApple] ["breakfast"] [] 95 1 1 3 300 20 (1/10) 3
    (by decide) oneVal
  rw [h]; decide

/-- C3: a selected meal with at least one eligible item contributes the
constraint `Σ calories·servings ≥ (target_calories/|selected_meals|)·factor`,
with factor 1/2 for breakfast among several meals and 4/5 otherwise; a
selected meal with no eligible item contributes no such constraint. -/
theorem mealMinimum_constraint (foods : List FoodItem) (sel excl : List String)
    (tc tp : ℚ) (minF maxF : ℤ) (ct pt w : ℚ) (ms : ℤ)
    (m : String) (hm : m ∈ sel) :
    (((eligibleIdx foods sel excl).filter
        (fun i => decide ((foodAt foods i).meal_time = m))) ≠ [] →
      ({ cname := ConName.minMeal m
         coeffs := ((eligibleIdx foods sel excl).filter
             (fun i => decide ((foodAt foods i).meal_time = m))).map
           (fun i => (i, caloriesD (foodAt foods i)))
         cmp := Cmp.ge
         rhs := tc / (sel.length : ℚ) *
           (if m = "breakfast" ∧ 1 < sel.length then 1/2 else 4/5) } : LinCon)
        ∈ (buildModel foods sel excl tc tp minF maxF ct pt w ms).cons)
    ∧ (((eligibleIdx foods sel excl).filter
        (fun i => decide ((foodAt foods i).meal_time = m))) = [] →
      ∀ c ∈ (buildModel foods sel excl tc tp minF maxF ct pt w ms).cons,
        c.cname ≠ ConName.minMeal m) := by
  have hlen : max sel.length 1 = sel.length :=
    Nat.max_eq_left (List.length_pos_iff_ne_nil.mpr (List.ne_nil_of_mem hm))
  constructor
  · intro hne
    show _ ∈ _ ++ _ ++ _
    refine List.mem_append.mpr (Or.inl (List.mem_append.mpr (Or.inr ?_)))
    refine List.mem_filterMap.mpr ⟨m, hm, ?_⟩
    have he : ((eligibleIdx foods sel excl).filter
        (fun i => decide ((foodAt foods i).meal_time = m))).isEmpty = false := by
      simpa [List.isEmpty_iff] using hne
    simp only [he, Bool.false_eq_true, if_false, Option.some.injEq]
    rw [hlen]
  · intro hemp c hc
    rcases List.mem_append.mp hc with hc' | hcf
    · rcases List.mem_append.mp hc' with hb | hmc
      · simp only [List.mem_cons, List.not_mem_nil, or_false] at hb
        rcases hb with rfl | rfl | rfl | rfl <;> simp
      · obtain ⟨m', hm', hsome⟩ := List.mem_filterMap.mp hmc
        by_cases hie : ((eligibleIdx foods sel excl).filter
            (fun i => decide ((foodAt foods i).meal_time = m'))).isEmpty
        · simp only [hie, if_true] at hsome
          exact absurd hsome (by simp)
        · simp only [hie, Bool.false_eq_true, if_false,
            Option.some.injEq] at hsome
          intro hname
          rw [← hsome] at hname
          simp only at hname
          have hmm : m' = m := ConName.minMeal.inj hname
          rw [hmm, hemp] at hie
          simp at hie
    · by_cases hf : ((eligibleIdx foods sel excl).filter
          (fun i => isFruit (foodAt foods i))).isEmpty
      · simp only [hf, if_true] at hcf
        exact absurd hcf (by simp)
      · simp only [hf, Bool.false_eq_true, if_false] at hcf
        simp only [List.mem_cons, List.not_mem_nil, or_false] at hcf
        rcases hcf with rfl | rfl <;> simp

/-- C3 witness. -/
theorem mealMinimum_constraint_witness :
    ({ cname := ConName.minMeal "breakfast", coeffs := [(0, (95 : ℚ))],
       cmp := Cmp.ge, rhs := (76 : ℚ) } : LinCon)
      ∈ (buildModel [wApple] ["breakfast"] [] 95 1 1 3 300 20 (1/10) 3).cons := by
  have h := (mealMinimum_constraint [wApple] ["breakfast"] [] 95 1 1 3 300 20
    (1/10) 3 "breakfast" (by decide)).1 (by decide)
  have e : LinCon.mk (ConName.minMeal "breakfast")
      ((((eligibleIdx [wApple] ["breakfast"] []).filter
          (fun i => decide ((foodAt [wApple] i).meal_time = "breakfast"))).map
        (fun i => (i, caloriesD (foodAt [wApple] i)))))
      Cmp.ge
      ((95 : ℚ) / ((["breakfast"] : List String).length : ℚ) *
        (if "breakfast" = "breakfast" ∧
            1 < (["breakfast"] : List String).length then 1/2 else 4/5))
      = LinCon.mk (ConName.minMeal "breakfast") [(0, (95 : ℚ))]
          Cmp.ge (76 : ℚ) := by decide
  exact e ▸ h

/-- C4: the fruit range constraints are in the model iff some eligible
item is a fruit (in which case they are `min_fruits ≤ Σ fruit servings`
and `Σ fruit servings ≤ max_fruits`); with no eligible fruit no fruit
constraint of any kind is added; fruithood depends only on the
case-folded category containing "fruit". -/
theorem fruit_constraint (foods : List FoodItem) (sel excl : List String)
    (tc tp : ℚ) (minF maxF : ℤ) (ct pt w : ℚ) (ms : ℤ) :
    ((∀ f : FoodItem, isFruit f = strContains (pyLower f.category) "fruit")
      ∧ (∀ f g : FoodItem, f.category = g.category → isFruit f = isFruit g))
    ∧ (((eligibleIdx foods sel excl).filter
          (fun i => isFruit (foodAt foods i))) ≠ [] →
        (({ cname := ConName.minFruits
            coeffs := ((eligibleIdx foods sel excl).filter
                (fun i => isFruit (foodAt foods i))).map (fun i => (i, (1 : ℚ)))
            cmp := Cmp.ge, rhs := (minF : ℚ) } : LinCon)
          ∈ (buildModel foods sel excl tc tp minF maxF ct pt w ms).cons)
        ∧ (({ cname := ConName.maxFruits
              coeffs := ((eligibleIdx foods sel excl).filter
                  (fun i => isFruit (foodAt foods i))).map (fun i => (i, (1 : ℚ)))
              cmp := Cmp.le, rhs := (maxF : ℚ) } : LinCon)
            ∈ (buildModel foods sel excl tc tp minF maxF ct pt w ms).cons))
    ∧ (((eligibleIdx foods sel excl).filter
          (fun i => isFruit (foodAt foods i))) = [] →
        ∀ c ∈ (buildModel foods sel excl tc tp minF maxF ct pt w ms).cons,
          c.cname ≠ ConName.minFruits ∧ c.cname ≠ ConName.maxFruits) := by
  refine ⟨⟨fun f => rfl, fun f g h => by simp [isFruit, h]⟩, ?_, ?_⟩
  · intro hne
    have he : ((eligibleIdx foods sel excl).filter
        (fun i => isFruit (foodAt foods i))).isEmpty = false := by
      simpa [List.isEmpty_iff] using hne
    constructor
    · show _ ∈ _ ++ _ ++ _
      refine List.mem_append.mpr (Or.inr ?_)
      simp only [he, Bool.false_eq_true, if_false]
      exact List.mem_cons_self _ _
    · show _ ∈ _ ++ _ ++ _
      refine List.mem_append.mpr (Or.inr ?_)
      simp only [he, Bool.false_eq_true, if_false]
      exact List.mem_cons.mpr (Or.inr (List.mem_cons_self _ _))
  · intro hemp c hc
    rcases List.mem_append.mp hc with hc' | hcf
    · rcases List.mem_append.mp hc' with hb | hmc
      · simp only [List.mem_cons, List.not_mem_nil, or_false] at hb
        rcases hb with rfl | rfl | rfl | rfl <;> simp
      · obtain ⟨m', hm', hsome⟩ := List.mem_filterMap.mp hmc
        by_cases hie : ((eligibleIdx foods sel excl).filter
            (fun i => decide ((foodAt foods i).meal_time = m'))).isEmpty
        · simp only [hie, if_true] at hsome
          exact absurd hsome (by simp)
        · simp only [hie, Bool.false_eq_true, if_false,
            Option.some.injEq] at hsome
          rw [← hsome]
          simp
    · rw [hemp] at hcf
      simp at hcf

/-- C4 witness. -/
theorem fruit_constraint_witness :
    (({ cname := ConName.minFruits, coeffs := [(0, (1 : ℚ))],
        cmp := Cmp.ge, rhs := (1 : ℚ) } : LinCon)
      ∈ (buildModel [wApple] ["breakfast"] [] 95 1 1 3 300 20 (1/10) 3).cons)
    ∧ ∀ c ∈ (buildModel [wEggs] ["breakfast"] [] 140 12 1 3 300 20
        (1/10) 3).cons, c.cname ≠ ConName.minFruits := by
  constructor
  · have h := ((fruit_constraint [wApple] ["breakfast"] [] 95 1 1 3 300 20
      (1/10) 3).2.1 (by decide)).1
    have e : LinCon.mk ConName.minFruits
        ((((eligibleIdx [wApple] ["breakfast"] []).filter
            (fun i => isFruit (foodAt [wApple] i))).map (fun i => (i, (1 : ℚ)))))
        Cmp.ge ((1 : ℤ) : ℚ)
        = LinCon.mk ConName.minFruits [(0, (1 : ℚ))] Cmp.ge (1 : ℚ) := by decide
    exact e ▸ h
  · intro c hc
    exact ((fruit_constraint [wEggs] ["breakfast"] [] 140 12 1 3 300 20
      (1/10) 3).2.2 (by decide) c hc).1

/-- C6: `generate_multiple_plans` returns at most `n` plans; any
iteration whose sub-solve is non-Optimal terminates the loop with the
plans accumulated so far, so a non-Optimal first sub-solve yields `[]`. -/
theorem generatePlans_stop (step : List String → PlanResult) (n : Nat) :
    (generateMultiplePlans step n).length ≤ n
    ∧ (∀ (excl : List String) (m : Nat), (step excl).status ≠ "Optimal" →
        generatePlansAux step (m + 1) excl = [])
    ∧ (1 ≤ n → (step []).status ≠ "Optimal" →
        generateMultiplePlans step n = []) := by
  refine ⟨generatePlansAux_length step n [], ?_, ?_⟩
  · intro excl m h
    rw [generatePlansAux, if_neg h]
  · intro hn h
    match n, hn with
    | n + 1, _ =>
      show generatePlansAux step (n + 1) [] = []
      rw [generatePlansAux, if_neg h]

/-- C6 witness. -/
theorem generatePlans_stop_witness :
    generateMultiplePlans errStep 1 = []
    ∧ (generateMultiplePlans errStep 5).length ≤ 5 := by
  have h1 := (generatePlans_stop errStep 1).2.2 (by decide) (by decide)
  have h5 := (generatePlans_stop errStep 5).1
  exact ⟨h1, h5⟩

/-- C7: after an Optimal sub-solve at any loop state, the plan is
appended and the exclusion set carried into every later iteration is
exactly the old set extended with the names of the plan's items having
at least two servings; the old exclusion set is a prefix of the new
one (it only grows). -/
theorem exclusion_growth (step : List String → PlanResult) (n : Nat)
    (excl : List String) (h : (step excl).status = "Optimal") :
    generatePlansAux step (n + 1) excl =
      step excl :: generatePlansAux step n
        (excl ++ ((step excl).items_selected.filter
          (fun it => decide (2 ≤ servD it))).map (fun it => it.name))
    ∧ List.IsPrefix excl (excl ++ itemsToExclude (step excl)) := by
  constructor
  · rw [generatePlansAux, if_pos h]; rfl
  · exact ⟨itemsToExclude (step excl), rfl⟩

/-- C7 witness. -/
theorem exclusion_growth_witness :
    generatePlansAux okStep 1 [] = [okResult]
    ∧ List.IsPrefix ([] : List String) ([] ++ itemsToExclude (okStep [])) := by
  have h := exclusion_growth okStep 0 [] (by decide)
  exact ⟨h.1.trans (by decide), h.2⟩

/-- C5: the immediate Error result occurs exactly when the filtered
meal selection is empty or the eligible item set is empty: each of the
two conditions yields its Error record with empty `meals` and `totals`
and the documented message, the solver is never invoked there (the
result does not depend on it), and conversely when neither condition
holds the result records the non-empty selected meals and equals
neither immediate Error record. -/
theorem validation_errors (foods : List FoodItem) (tc tp : ℚ)
    (selMeals? : Option (List String)) (minF maxF : ℤ) (ct pt w : ℚ)
    (ms : ℤ) (excl? : Option (List String)) (solver : LPModel → SolverOut) :
    (filterMeals (selMeals?.getD ["breakfast", "lunch", "dinner"]) = [] →
      optimizeMealPlan foods tc tp selMeals? minF maxF ct pt w ms excl? solver
        = { status := "Error",
            message := "No valid meals selected. Choose from: breakfast, lunch, dinner" })
    ∧ (filterMeals (selMeals?.getD ["breakfast", "lunch", "dinner"]) ≠ [] →
       eligibleIdx foods
           (filterMeals (selMeals?.getD ["breakfast", "lunch", "dinner"]))
           (excl?.getD []) = [] →
      optimizeMealPlan foods tc tp selMeals? minF maxF ct pt w ms excl? solver
        = { status := "Error",
            message := "No foods available for selected meals: "
              ++ String.intercalate ", "
                (filterMeals (selMeals?.getD ["breakfast", "lunch", "dinner"])) })
    ∧ ((filterMeals (selMeals?.getD ["breakfast", "lunch", "dinner"]) = []
        ∨ eligibleIdx foods
            (filterMeals (selMeals?.getD ["breakfast", "lunch", "dinner"]))
            (excl?.getD []) = []) →
        ∀ solver' : LPModel → SolverOut,
          optimizeMealPlan foods tc tp selMeals? minF maxF ct pt w ms excl? solver
            = optimizeMealPlan foods tc tp selMeals? minF maxF ct pt w ms
                excl? solver')
    ∧ (filterMeals (selMeals?.getD ["breakfast", "lunch", "dinner"]) ≠ [] →
       eligibleIdx foods
           (filterMeals (selMeals?.getD ["breakfast", "lunch", "dinner"]))
           (excl?.getD []) ≠ [] →
        (optimizeMealPlan foods tc tp selMeals? minF maxF ct pt w ms
            excl? solver).selected_meals
          = filterMeals (selMeals?.getD ["breakfast", "lunch", "dinner"])
        ∧ optimizeMealPlan foods tc tp selMeals? minF maxF ct pt w ms
            excl? solver
          ≠ { status := "Error",
              message := "No valid meals selected. Choose from: breakfast, lunch, dinner" }
        ∧ optimizeMealPlan foods tc tp selMeals? minF maxF ct pt w ms
            excl? solver
          ≠ { status := "Error",
              message := "No foods available for selected meals: "
                ++ String.intercalate ", "
                  (filterMeals (selMeals?.getD
                    ["breakfast", "lunch", "dinner"])) }) := by
  have p1 : filterMeals (selMeals?.getD ["breakfast", "lunch", "dinner"]) = [] →
      ∀ s : LPModel → SolverOut,
      optimizeMealPlan foods tc tp selMeals? minF maxF ct pt w ms excl? s
        = { status := "Error",
            message := "No valid meals selected. Choose from: breakfast, lunch, dinner" } := by
    intro h s
    simp [optimizeMealPlan, h]
  have p2 : filterMeals (selMeals?.getD ["breakfast", "lunch", "dinner"]) ≠ [] →
      eligibleIdx foods
          (filterMeals (selMeals?.getD ["breakfast", "lunch", "dinner"]))
          (excl?.getD []) = [] →
      ∀ s : LPModel → SolverOut,
      optimizeMealPlan foods tc tp selMeals? minF maxF ct pt w ms excl? s
        = { status := "Error",
            message := "No foods available for selected meals: "
              ++ String.intercalate ", "
                (filterMeals (selMeals?.getD ["breakfast", "lunch", "dinner"])) } := by
    intro h1 h2 s
    simp [optimizeMealPlan, List.isEmpty_iff, h1, h2]
  refine ⟨fun h => p1 h solver, fun h1 h2 => p2 h1 h2 solver, ?_, ?_⟩
  · rintro (h | h) solver'
    · rw [p1 h solver, p1 h solver']
    · by_cases h1 : filterMeals (selMeals?.getD ["breakfast", "lunch", "dinner"]) = []
      · rw [p1 h1 solver, p1 h1 solver']
      · rw [p2 h1 h solver, p2 h1 h solver']
  · intro h1 h2
    have hsel : (optimizeMealPlan foods tc tp selMeals? minF maxF ct pt w ms
        excl? solver).selected_meals
        = filterMeals (selMeals?.getD ["breakfast", "lunch", "dinner"]) := by
      by_cases h3 : (solver (buildModel foods
          (filterMeals (selMeals?.getD ["breakfast", "lunch", "dinner"]))
          (excl?.getD []) tc tp minF maxF ct pt w ms)).status = "Optimal"
      · simp [optimizeMealPlan, List.isEmpty_iff, h1, h2, h3, formatResults]
      · simp [optimizeMealPlan, List.isEmpty_iff, h1, h2, h3]
    refine ⟨hsel, ?_, ?_⟩
    · intro heq
      rw [heq] at hsel
      exact h1 hsel.symm
    · intro heq
      rw [heq] at hsel
      exact h1 hsel.symm

/-- C5 witness. -/
theorem validation_errors_witness :
    (optimizeMealPlan [wApple] 95 1 (some ["snack"]) 1 3 300 20 (1/10) 3
        none oneSolver
      = { status := "Error",
          message := "No valid meals selected. Choose from: breakfast, lunch, dinner" })
    ∧ (optimizeMealPlan [wApple] 95 1 (some ["lunch"]) 1 3 300 20 (1/10) 3
        none oneSolver
      = { status := "Error",
          message := "No foods available for selected meals: "
            ++ String.intercalate ", "
              (filterMeals ((some ["lunch"]).getD
                ["breakfast", "lunch", "dinner"])) })
    ∧ ((optimizeMealPlan [wApple] 95 1 (some ["breakfast"]) 1 3 300 20 (1/10) 3
          none oneSolver).selected_meals = ["breakfast"]
        ∧ optimizeMealPlan [wApple] 95 1 (some ["breakfast"]) 1 3 300 20 (1/10)
            3 none oneSolver
          ≠ { status := "Error",
              message := "No valid meals selected. Choose from: breakfast, lunch, dinner" }) := by
  refine ⟨?_, ?_, ?_⟩
  · exact (validation_errors [wApple] 95 1 (some ["snack"]) 1 3 300 20 (1/10) 3
      none oneSolver).1 (by decide)
  · exact (validation_errors [wApple] 95 1 (some ["lunch"]) 1 3 300 20 (1/10) 3
      none oneSolver).2.1 (by decide) (by decide)
  · have h := (validation_errors [wApple] 95 1 (some ["breakfast"]) 1 3 300 20
      (1/10) 3 none oneSolver).2.2.2 (by decide) (by decide)
    exact ⟨h.1.trans (by decide), h.2.1⟩

/-- C8: in every Optimal result, `totals` is the servings-weighted sum
of each of the six nutrients over `items_selected` (missing fields
counting 0), and `num_items` is the length of `items_selected`. -/
theorem totals_sum (foods : List FoodItem) (tc tp : ℚ)
    (selMeals? : Option (List String)) (minF maxF : ℤ) (ct pt w : ℚ)
    (ms : ℤ) (excl? : Option (List String)) (solver : LPModel → SolverOut)
    (h : (optimizeMealPlan foods tc tp selMeals? minF maxF ct pt w ms
      excl? solver).status = "Optimal") :
    (optimizeMealPlan foods tc tp selMeals? minF maxF ct pt w ms
        excl? solver).num_items
      = (optimizeMealPlan foods tc tp selMeals? minF maxF ct pt w ms
          excl? solver).items_selected.length
    ∧ (optimizeMealPlan foods tc tp selMeals? minF maxF ct pt w ms
        excl? solver).totals
      = some
        { calories := (((optimizeMealPlan foods tc tp selMeals? minF maxF ct
              pt w ms excl? solver).items_selected.map
            (fun it => caloriesD it * (servD it : ℚ))).sum),
          protein := (((optimizeMealPlan foods tc tp selMeals? minF maxF ct
              pt w ms excl? solver).items_selected.map
            (fun it => proteinD it * (servD it : ℚ))).sum),
          carbs := (((optimizeMealPlan foods tc tp selMeals? minF maxF ct
              pt w ms excl? solver).items_selected.map
            (fun it => carbsD it * (servD it : ℚ))).sum),
          fat := (((optimizeMealPlan foods tc tp selMeals? minF maxF ct
              pt w ms excl? solver).items_selected.map
            (fun it => fatD it * (servD it : ℚ))).sum),
          fiber := (((optimizeMealPlan foods tc tp selMeals? minF maxF ct
              pt w ms excl? solver).items_selected.map
            (fun it => fiberD it * (servD it : ℚ))).sum),
          sodium := (((optimizeMealPlan foods tc tp selMeals? minF maxF ct
              pt w ms excl? solver).items_selected.map
            (fun it => sodiumD it * (servD it : ℚ))).sum) } := by
  by_cases h1 : (filterMeals (selMeals?.getD
      ["breakfast", "lunch", "dinner"])).isEmpty
  · have hs : (optimizeMealPlan foods tc tp selMeals? minF maxF ct pt w ms
        excl? solver).status = "Error" := by
      simp [optimizeMealPlan, h1]
    rw [hs] at h
    exact absurd h (by decide)
  · by_cases h2 : (eligibleIdx foods
        (filterMeals (selMeals?.getD ["breakfast", "lunch", "dinner"]))
        (excl?.getD [])).isEmpty
    · have hs : (optimizeMealPlan foods tc tp selMeals? minF maxF ct pt w ms
          excl? solver).status = "Error" := by
        simp [optimizeMealPlan, h1, h2]
      rw [hs] at h
      exact absurd h (by decide)
    · by_cases h3 : (solver (buildModel foods
          (filterMeals (selMeals?.getD ["breakfast", "lunch", "dinner"]))
          (excl?.getD []) tc tp minF maxF ct pt w ms)).status = "Optimal"
      · constructor
        · simp only [optimizeMealPlan, h1, Bool.false_eq_true, if_false, h2,
            h3, if_true, formatResults]
        · simp only [optimizeMealPlan, h1, Bool.false_eq_true, if_false, h2,
            h3, if_true, formatResults]
      · have hs : (optimizeMealPlan foods tc tp selMeals? minF maxF ct pt w ms
            excl? solver).status = (solver (buildModel foods
              (filterMeals (selMeals?.getD ["breakfast", "lunch", "dinner"]))
              (excl?.getD []) tc tp minF maxF ct pt w ms)).status := by
          simp [optimizeMealPlan, h1, h2, h3]
        rw [hs] at h
        exact absurd h h3

/-- C8 witness. -/
theorem totals_sum_witness :
    (optimizeMealPlan [wApple] 95 1 (some ["breakfast"]) 1 3 300 20 (1/10) 3
        none oneSolver).num_items = 1
    ∧ (optimizeMealPlan [wApple] 95 1 (some ["breakfast"]) 1 3 300 20 (1/10) 3
        none oneSolver).totals
      = some { calories := 95, protein := 1, carbs := 0, fat := 0,
               fiber := 0, sodium := 0 } := by
  have h := totals_sum [wApple] 95 1 (some ["breakfast"]) 1 3 300 20 (1/10) 3
    none oneSolver (by decide)
  exact ⟨h.1.trans (by decide), h.2.trans (by decide)⟩

/-- C10: request-side meal names are lowercased and filtered, so every
retained name is exactly one of "breakfast"/"lunch"/"dinner"; a catalog
item whose `meal_time` is not exactly one of those lowercase strings is
compared verbatim and never receives a decision variable. -/
theorem meal_time_case_mismatch (sel0 : List String) (foods : List FoodItem)
    (excl : List String) (i : Nat)
    (hmt : (foodAt foods i).meal_time ∉ validMeals) :
    (∀ m ∈ filterMeals sel0, m ∈ validMeals)
    ∧ i ∉ eligibleIdx foods (filterMeals sel0) excl := by
  have hval : ∀ m ∈ filterMeals sel0, m ∈ validMeals := by
    intro m hm
    obtain ⟨m0, _, hsome⟩ := List.mem_filterMap.mp hm
    by_cases hc : pyLower m0 ∈ validMeals
    · rw [if_pos hc] at hsome
      cases hsome
      exact hc
    · rw [if_neg hc] at hsome
      cases hsome
  refine ⟨hval, ?_⟩
  intro hi
  have hp := List.of_mem_filter hi
  simp only [Bool.and_eq_true, decide_eq_true_eq] at hp
  exact hmt (hval _ hp.1)

/-- C10 witness. -/
theorem meal_time_case_mismatch_witness :
    0 ∉ eligibleIdx [bApple] (filterMeals ["BREAKFAST"]) [] :=
  (meal_time_case_mismatch ["BREAKFAST"] [bApple] [] 0 (by decide)).2

/-- If a solved value is within 1/100 of its rounded integer, the raw
`> 0.01` test agrees with `rounded ≥ 1`. -/
theorem round_one_le_iff (v : ℚ)
    (lo : (pyRound v : ℚ) - 1/100 ≤ v) (hi : v ≤ (pyRound v : ℚ) + 1/100) :
    (1/100 < v ↔ 1 ≤ pyRound v) := by
  constructor
  · intro h
    by_contra hr
    push_neg at hr
    have h0 : pyRound v ≤ 0 := by omega
    have h0' : ((pyRound v : ℤ) : ℚ) ≤ 0 := by exact_mod_cast h0
    linarith
  · intro h
    have h1 : (1 : ℚ) ≤ ((pyRound v : ℤ) : ℚ) := by exact_mod_cast h
    linarith

/-- A near-integral solved value below the variable upper bound rounds
to at most that bound. -/
theorem round_le_max (v : ℚ) (ms : ℤ) (hv : v ≤ (ms : ℚ))
    (lo : (pyRound v : ℚ) - 1/100 ≤ v) : pyRound v ≤ ms := by
  by_contra hgt
  push_neg at hgt
  have h1 : ms + 1 ≤ pyRound v := hgt
  have h1' : ((ms : ℤ) : ℚ) + 1 ≤ ((pyRound v : ℤ) : ℚ) := by exact_mod_cast h1
  linarith

/-- C1 counterexample: at the solved value 3/10 the item is included
(the raw value exceeds 0.01) although its rounded serving count is 0,
so `items_selected` carries an item with servings 0 ∉ [1, max]. -/
theorem inclusion_threshold_cex :
    (formatResults [wApple] [0] cexVal).items_selected.map servD = [0]
    ∧ (formatResults [wApple] [0] cexVal).num_items = 1
    ∧ pyRound (cexVal 0) = 0 := by decide

/-- C1 (amended): `_format_results` includes an item iff its raw solved
value exceeds 0.01 (the threshold precedes rounding); when every solved
value is within 0.01 of its rounded integer and lies within the
variable bounds `[0, max_servings_per_item]`, inclusion is equivalent
to a rounded serving count ≥ 1, every included item carries servings in
`[1, max_servings_per_item]`, and each meal bucket holds exactly the
included items of that meal. -/
theorem inclusion_threshold_amended (foods : List FoodItem)
    (idxs : List Nat) (val : Nat → ℚ) (ms : ℤ)
    (hnear : ∀ i ∈ idxs, (pyRound (val i) : ℚ) - 1/100 ≤ val i
      ∧ val i ≤ (pyRound (val i) : ℚ) + 1/100)
    (hrange : ∀ i ∈ idxs, 0 ≤ val i ∧ val i ≤ (ms : ℚ)) :
    (formatResults foods idxs val).items_selected
      = (idxs.filter (fun i => decide (1 ≤ pyRound (val i)))).map
          (annotate foods val)
    ∧ (∀ it ∈ (formatResults foods idxs val).items_selected,
        1 ≤ servD it ∧ servD it ≤ ms)
    ∧ (∀ p ∈ (formatResults foods idxs val).meals,
        p.2 = (formatResults foods idxs val).items_selected.filter
          (fun f => decide (f.meal_time = p.1))) := by
  have hfilter : idxs.filter (fun i => decide ((1 : ℚ)/100 < val i))
      = idxs.filter (fun i => decide (1 ≤ pyRound (val i))) := by
    refine List.filter_congr ?_
    intro i hi
    exact decide_eq_decide.mpr
      (round_one_le_iff (val i) (hnear i hi).1 (hnear i hi).2)
  refine ⟨?_, ?_, ?_⟩
  · show (idxs.filter (fun i => decide ((1 : ℚ)/100 < val i))).map
        (annotate foods val) = _
    rw [hfilter]
  · intro it hit
    obtain ⟨i, hifil, rfl⟩ := List.mem_map.mp hit
    have hi : i ∈ idxs := List.mem_of_mem_filter hifil
    have hraw : (1 : ℚ)/100 < val i := by
      simpa using List.of_mem_filter hifil
    have hs : servD (annotate foods val i) = pyRound (val i) := rfl
    rw [hs]
    refine ⟨(round_one_le_iff (val i) (hnear i hi).1 (hnear i hi).2).mp hraw,
      round_le_max (val i) ms (hrange i hi).2 (hnear i hi).1⟩
  · intro p hp
    simp only [formatResults, List.mem_cons, List.not_mem_nil,
      or_false] at hp
    rcases hp with rfl | rfl | rfl <;> rfl

/-- C1 witness (for the amended theorem). -/
theorem inclusion_threshold_amended_witness :
    (formatResults [wApple] [0] twoVal).items_selected
      = [{ wApple with servings := some 2 }]
    ∧ (1 ≤ servD { wApple with servings := some 2 }
        ∧ servD { wApple with servings := some 2 } ≤ 3) := by
  have h := inclusion_threshold_amended [wApple] [0] twoVal 3
    (by decide) (by decide)
  exact ⟨h.1.trans (by decide),
    h.2.1 { wApple with servings := some 2 } (by decide)⟩

/-- Old heap addresses keep their contents across the selection loop:
the copies are fresh allocations at the end of the heap. -/
theorem annotateAll_fst_getElem (val : Nat → ℚ) :
    ∀ (idxs : List Nat) (heap : List FoodItem) (a : Nat),
      a < heap.length →
      ((annotateAll heap idxs val).1)[a]? = heap[a]? := by
  intro idxs
  induction idxs with
  | nil =>
    intro heap a _
    rfl
  | cons i rest ih =>
    intro heap a ha
    simp only [annotateAll]
    by_cases hv : (1 : ℚ)/100 < val i
    · rw [if_pos hv]
      have ha' : a < (heap
          ++ [{ foodAt heap i with servings := some (pyRound (val i)) }]).length := by
        simp
        omega
      rw [ih _ a ha']
      exact List.getElem?_append_left ha
    · rw [if_neg hv]
      exact ih heap a ha

/-- `foodAt` is determined by `getElem?`. -/
theorem foodAt_eq_of_getElem? (l : List FoodItem) (n : Nat) (f : FoodItem)
    (h : l[n]? = some f) : foodAt l n = f := by
  simp [foodAt, List.getD_eq_getElem?_getD, h]

/-- `foodAt` reads below the old length are unaffected by appending. -/
theorem foodAt_append (heap l : List FoodItem) (i : Nat)
    (h : i < heap.length) : foodAt (heap ++ l) i = foodAt heap i := by
  simp only [foodAt, List.getD_eq_getElem?_getD]
  rw [List.getElem?_append_left h]

/-- The addresses returned by the heap-model loop hold exactly the
annotated copies that `_format_results` reports. -/
theorem annotateAll_snd_items (val : Nat → ℚ) :
    ∀ (idxs : List Nat) (heap : List FoodItem),
      (∀ i ∈ idxs, i < heap.length) →
      ((annotateAll heap idxs val).2).map
          (fun ad => foodAt (annotateAll heap idxs val).1 ad)
        = (idxs.filter (fun i => decide ((1 : ℚ)/100 < val i))).map
            (annotate heap val) := by
  intro idxs
  induction idxs with
  | nil =>
    intro heap _
    rfl
  | cons i rest ih =>
    intro heap hb
    simp only [annotateAll]
    by_cases hv : (1 : ℚ)/100 < val i
    · rw [if_pos hv]
      have hlen : i < heap.length := hb i (List.mem_cons_self i rest)
      have hbrest : ∀ j ∈ rest, j < (heap
          ++ [{ foodAt heap i with servings := some (pyRound (val i)) }]).length := by
        intro j hj
        have := hb j (List.mem_cons_of_mem i hj)
        simp
        omega
      have hfirst := annotateAll_fst_getElem val rest
        (heap ++ [{ foodAt heap i with servings := some (pyRound (val i)) }])
      rw [List.filter_cons_of_pos (by simpa using hv), List.map_cons,
        List.map_cons]
      refine List.cons_eq_cons.mpr ⟨?_, ?_⟩
      case _ =>
        -- head: the fresh address holds the annotated copy of item i
        have hgot : ((annotateAll (heap
            ++ [{ foodAt heap i with servings := some (pyRound (val i)) }])
            rest val).1)[heap.length]?
            = some { foodAt heap i with servings := some (pyRound (val i)) } := by
          rw [hfirst heap.length (by simp)]
          exact List.getElem?_concat_length heap _
        exact foodAt_eq_of_getElem? _ _ _ hgot
      case _ =>
        -- tail: induction hypothesis plus reads below the old length
        rw [ih _ hbrest]
        refine List.map_congr_left ?_
        intro j hj
        have hjlen : j < heap.length :=
          hb j (List.mem_cons_of_mem i (List.mem_of_mem_filter hj))
        simp only [annotate]
        rw [foodAt_append heap _ j hjlen]
    · rw [if_neg hv, List.filter_cons_of_neg (by simpa using hv)]
      exact ih heap (fun j hj => hb j (List.mem_cons_of_mem i hj))

/-- C9: the selection loop of `_format_results` never mutates a catalog
record — every pre-existing heap address reads back unchanged after the
call — and the selected copies are exactly the annotated items the
formatted result reports. -/
theorem catalog_unchanged (heap : List FoodItem) (idxs : List Nat)
    (val : Nat → ℚ) :
    (∀ a, a < heap.length →
      ((annotateAll heap idxs val).1)[a]? = heap[a]?)
    ∧ ((∀ i ∈ idxs, i < heap.length) →
      ((annotateAll heap idxs val).2).map
          (fun ad => foodAt (annotateAll heap idxs val).1 ad)
        = (formatResults heap idxs val).items_selected) :=
  ⟨fun a ha => annotateAll_fst_getElem val idxs heap a ha,
   fun hb => (annotateAll_snd_items val idxs heap hb).trans rfl⟩

/-- C9 witness. -/
theorem catalog_unchanged_witness :
    ((annotateAll [wApple] [0] oneVal).1)[0]? = some wApple
    ∧ ((annotateAll [wApple] [0] oneVal).2).map
        (fun ad => foodAt (annotateAll [wApple] [0] oneVal).1 ad)
      = (formatResults [wApple] [0] oneVal).items_selected := by
  have h := catalog_unchanged [wApple] [0] oneVal
  exact ⟨(h.1 0 (by decide)).trans (by decide), h.2 (by decide)⟩

end MealOpt
